import Mathlib

/-!
Shallow embedding of package `transaction` (file `transaction/main.go`) of the
brinick/fs repository: the `Transaction` core with its `Open`, `Close` and
`Abort` retry state machine.

Modelling conventions:

* Go `error` values are `Option GoErr`; `none` is Go's `nil` error.
* The injected `starter` / `stopper` / `aborter` interface values are oracles:
  the outcome of the i-th `Start` (resp. `Stop`) call within one `Open`
  (resp. `Close`) call is `start i` (resp. `stop i`), together with the
  numbers the interface reports (`OpenAttempts`, `PublishAttempts`,
  `PublishAttemptsWait`).
* The `context.Context` argument is an oracle `Ctx`: `cancelledDuringWait i`
  tells whether `ctx.Done()` fires during the inter-attempt wait of loop
  iteration `i` (iterations counted from 0), and `ctxErr` is `ctx.Err()`.
* A call's result records the final transaction value, the returned error,
  how many backend calls were made, and the durations (in seconds) of the
  inter-attempt waits that ran to completion.
* `errors.Is(err, context.Canceled)` and
  `errors.Is(err, context.DeadlineExceeded)`: no error type of the package
  defines `Unwrap`, so `errors.Is` against these sentinels reduces to
  equality with the sentinel.
* In Go's `Open`, the loop body declares `err := t.Starter.Start(ctx)` with
  `:=`, shadowing the outer `var err error` that the function returns; the
  embedding keeps both variables (`err` is the outer one, threaded through
  the loop, `innerErr` the shadowed one) so the source's behaviour is
  reproduced exactly.  `Close` assigns with `=` (no shadowing).
-/

/-- Go error values that arise in the transaction package: the two context
sentinels, the three phase-wrapping error structs (`OpenError`, `CloseError`,
`AbortError`, each holding an underlying `Err`), and opaque backend errors
(indexed by a code). -/
inductive GoErr where
  | canceled
  | deadlineExceeded
  | OpenError (Err : GoErr)
  | CloseError (Err : GoErr)
  | AbortError (Err : GoErr)
  | other (code : Nat)
deriving DecidableEq

/-- `errors.Is(err, context.Canceled) || errors.Is(err, context.DeadlineExceeded)`:
no error type in the package implements `Unwrap`, so this is equality with a
sentinel. -/
def errorsIsCancelOrDeadline : Option GoErr → Bool
  | some .canceled => true
  | some .deadlineExceeded => true
  | _ => false

/-- An error outcome on which the retry loops keep going: non-nil and not a
context cancellation/deadline sentinel. -/
def retryable (e : Option GoErr) : Bool :=
  !(e.isNone || errorsIsCancelOrDeadline e)

/-- Oracle for the injected `starter` interface value: outcomes of successive
`Start` calls, and the `OpenAttempts()` the interface reports. -/
structure StarterOracle where
  start : Nat → Option GoErr
  openAttempts : Nat

/-- Oracle for the injected `stopper` interface value: outcomes of successive
`Stop` calls, the `PublishAttempts()` and `PublishAttemptsWait()` it reports. -/
structure StopperOracle where
  stop : Nat → Option GoErr
  publishAttempts : Nat
  publishAttemptsWait : Nat

/-- Oracle for the injected `aborter` interface value: the outcome of `Kill`. -/
structure AborterOracle where
  kill : Option GoErr

/-- Oracle for the `context.Context` passed to a single `Open`/`Close`/`Abort`
call: whether `ctx.Done()` fires during the wait of loop iteration `i`, and
the value of `ctx.Err()`. -/
structure Ctx where
  cancelledDuringWait : Nat → Bool
  ctxErr : GoErr

/-- The `Transaction` base struct: the `ongoing` flag and the three injected
capability values. -/
structure Transaction where
  ongoing : Bool
  Starter : StarterOracle
  Stopper : StopperOracle
  Aborter : AborterOracle

/-- `func (t *Transaction) OpenAttempts() int { return 3 }`.  Inside
`Transaction.Open` the call `t.OpenAttempts()` resolves statically to this
method on the base struct (not to `t.Starter.OpenAttempts()`). -/
def Transaction.OpenAttempts (_ : Transaction) : Nat := 3

/-- `func (t *Transaction) PublishAttempts() int { return 3 }`.  Inside
`Transaction.Close` the call `t.PublishAttempts()` resolves statically to this
method on the base struct (not to `t.Stopper.PublishAttempts()`). -/
def Transaction.PublishAttempts (_ : Transaction) : Nat := 3

/-- `func (t *Transaction) PublishAttemptsWait() int { return 30 }`. -/
def Transaction.PublishAttemptsWait (_ : Transaction) : Nat := 30

/-- Result of one `Open` call: final transaction value, returned error,
number of `Start` invocations, durations of the completed waits. -/
structure OpenResult where
  t : Transaction
  ret : Option GoErr
  startCalls : Nat
  waits : List Nat

/-- The `for attempts > 0` loop of `Transaction.Open`.  `err` is the outer
`var err error` (returned at the end; never assigned by the loop because the
source shadows it), `attempts` the remaining attempts, `i` the index of the
next `Start` call, `ws` the waits completed so far. -/
def openLoop (t : Transaction) (ctx : Ctx) (err : Option GoErr) :
    Nat → Nat → List Nat → OpenResult
  | 0, i, ws => ⟨t, err, i, ws⟩
  | attempts + 1, i, ws =>
    -- `err := t.Starter.Start(ctx)` — a new, shadowing variable
    let innerErr := t.Starter.start i
    if innerErr.isNone || errorsIsCancelOrDeadline innerErr then
      -- break; `t.ongoing = (err == nil)` on the shadowed variable
      ⟨{ t with ongoing := innerErr.isNone }, err, i + 1, ws⟩
    else if ctx.cancelledDuringWait i then
      -- `case <-ctx.Done(): return ctx.Err()`
      ⟨t, some ctx.ctxErr, i + 1, ws⟩
    else
      -- `case <-time.After(time.Second * 10):` completed
      openLoop t ctx err attempts (i + 1) (ws ++ [10])

/-- `func (t *Transaction) Open(ctx context.Context) error`. -/
def Transaction.Open (t : Transaction) (ctx : Ctx) : OpenResult :=
  if t.ongoing then ⟨t, none, 0, []⟩
  else openLoop t ctx none t.OpenAttempts 0 []

/-- Result of one `Close` call; `earlyCtxReturn` records whether the call
returned from inside the loop via `case <-ctx.Done(): return ctx.Err()`
(a path that skips the post-loop flag handling). -/
structure CloseResult where
  t : Transaction
  ret : Option GoErr
  stopCalls : Nat
  waits : List Nat
  earlyCtxReturn : Bool

/-- The `for attempts > 0` loop of `Transaction.Close`.  Here the source
assigns `err = t.Stopper.Stop(ctx)` to the outer variable (no shadowing), so
`err` carries the last `Stop` outcome into the loop exit. -/
def closeLoop (t : Transaction) (ctx : Ctx) (err : Option GoErr) :
    Nat → Nat → List Nat → CloseResult
  | 0, i, ws => ⟨t, err, i, ws, false⟩
  | attempts + 1, i, ws =>
    let err2 := t.Stopper.stop i
    if err2.isNone || errorsIsCancelOrDeadline err2 then
      -- break; `t.ongoing = (err != nil)`
      ⟨{ t with ongoing := !err2.isNone }, err2, i + 1, ws, false⟩
    else if ctx.cancelledDuringWait i then
      -- `case <-ctx.Done(): return ctx.Err()`
      ⟨t, some ctx.ctxErr, i + 1, ws, true⟩
    else
      -- `case <-time.After(time.Second * PublishAttemptsWait()):` completed
      closeLoop t ctx err2 attempts (i + 1) (ws ++ [t.Stopper.publishAttemptsWait])

/-- `func (t *Transaction) Close(ctx context.Context) error`: the loop, then
`if err != nil { t.ongoing = false }; return err` — executed only when the
loop exits by `break` or exhaustion, not on the in-loop `return ctx.Err()`. -/
def Transaction.Close (t : Transaction) (ctx : Ctx) : CloseResult :=
  if !t.ongoing then ⟨t, none, 0, [], false⟩
  else
    let r := closeLoop t ctx none t.PublishAttempts 0 []
    if r.earlyCtxReturn then r
    else if r.ret.isSome then ⟨{ r.t with ongoing := false }, r.ret, r.stopCalls, r.waits, false⟩
    else r

/-- Result of one `Abort` call. -/
structure AbortResult where
  t : Transaction
  ret : Option GoErr
  killCalls : Nat

/-- `func (t *Transaction) Abort(ctx context.Context) error`. -/
def Transaction.Abort (t : Transaction) (_ctx : Ctx) : AbortResult :=
  if !t.ongoing then ⟨t, none, 0⟩
  else ⟨t, t.Aborter.kill, 1⟩

/-- `func (t *Transaction) SetOngoing()`. -/
def Transaction.SetOngoing (t : Transaction) : Transaction :=
  { t with ongoing := true }

/-- Convenience constructor for concrete transactions in witnesses and
counterexamples: the oracle numbers mirror the package defaults. -/
def mkT (ong : Bool) (startF stopF : Nat → Option GoErr) (killE : Option GoErr) :
    Transaction :=
  { ongoing := ong
    Starter := { start := startF, openAttempts := 3 }
    Stopper := { stop := stopF, publishAttempts := 3, publishAttemptsWait := 30 }
    Aborter := { kill := killE } }

/-- A context that is never cancelled during a wait. -/
def noCancelCtx : Ctx :=
  { cancelledDuringWait := fun _ => false, ctxErr := .canceled }

/-- A context whose `Done` fires exactly during the wait of iteration `k`. -/
def cancelAtCtx (k : Nat) : Ctx :=
  { cancelledDuringWait := fun i => i == k, ctxErr := .canceled }

/-- `t` with the attempt counts reported by its injected interfaces replaced:
the Starter reports `m` open attempts and the Stopper `n` publish attempts.
Everything else (outcomes, wait seconds, flag) is untouched. -/
def withAttCfg (t : Transaction) (m n : Nat) : Transaction :=
  { t with
    Starter := { t.Starter with openAttempts := m }
    Stopper := { t.Stopper with publishAttempts := n } }

theorem retryable_cond_false {e : Option GoErr} (h : retryable e = true) :
    (e.isNone || errorsIsCancelOrDeadline e) = false := by
  cases hc : (e.isNone || errorsIsCancelOrDeadline e) with
  | false => rfl
  | true => simp [retryable, hc] at h

theorem retryable_isSome {e : Option GoErr} (h : retryable e = true) :
    e.isSome = true := by
  cases e <;> simp_all [retryable]

/-- If the `Start` outcomes at relative indices `0..m-1` are retryable, the
waits are undisturbed, and the outcome at index `m < attempts` is nil, the
open loop breaks there: the flag is set, the (shadowed-away) outer error is
returned, `m + 1` calls in total and `m` completed waits of 10 seconds. -/
theorem openLoop_break_success (m : Nat) :
    ∀ (a i : Nat) (t : Transaction) (ctx : Ctx) (err : Option GoErr) (ws : List Nat),
    m < a →
    (∀ j, j < m → retryable (t.Starter.start (i + j)) = true) →
    (∀ j, j < m → ctx.cancelledDuringWait (i + j) = false) →
    t.Starter.start (i + m) = none →
    openLoop t ctx err a i ws =
      ⟨{ t with ongoing := true }, err, i + m + 1, ws ++ List.replicate m 10⟩ := by
  induction m with
  | zero =>
    intro a i t ctx err ws hma _ _ hs
    match a, hma with
    | a + 1, _ =>
      rw [Nat.add_zero] at hs
      simp [openLoop, hs]
  | succ m ih =>
    intro a i t ctx err ws hma hr hw hs
    match a, hma with
    | a + 1, hma =>
      have hc := retryable_cond_false (hr 0 (Nat.succ_pos m))
      have hw0 := hw 0 (Nat.succ_pos m)
      rw [Nat.add_zero] at hc hw0
      have step : openLoop t ctx err (a + 1) i ws =
          openLoop t ctx err a (i + 1) (ws ++ [10]) := by
        simp [openLoop, hc, hw0]
      rw [step, ih a (i + 1) t ctx err (ws ++ [10]) (by omega)
        (fun j hj => by
          have := hr (j + 1) (by omega)
          rwa [show i + (j + 1) = i + 1 + j by omega] at this)
        (fun j hj => by
          have := hw (j + 1) (by omega)
          rwa [show i + (j + 1) = i + 1 + j by omega] at this)
        (by rwa [show i + 1 + m = i + (m + 1) by omega])]
      simp [show i + 1 + m + 1 = i + (m + 1) + 1 by omega, List.replicate_succ,
        List.append_assoc]

/-- Same configuration, but the outcome at index `m` is a context
cancellation/deadline sentinel: the loop breaks, the flag is assigned false,
and (because of the shadowing) the outer error is returned. -/
theorem openLoop_break_cancel (m : Nat) :
    ∀ (a i : Nat) (t : Transaction) (ctx : Ctx) (err : Option GoErr) (ws : List Nat),
    m < a →
    (∀ j, j < m → retryable (t.Starter.start (i + j)) = true) →
    (∀ j, j < m → ctx.cancelledDuringWait (i + j) = false) →
    errorsIsCancelOrDeadline (t.Starter.start (i + m)) = true →
    openLoop t ctx err a i ws =
      ⟨{ t with ongoing := (t.Starter.start (i + m)).isNone }, err, i + m + 1,
        ws ++ List.replicate m 10⟩ := by
  induction m with
  | zero =>
    intro a i t ctx err ws hma _ _ hs
    match a, hma with
    | a + 1, _ =>
      rw [Nat.add_zero] at hs ⊢
      simp [openLoop, hs]
  | succ m ih =>
    intro a i t ctx err ws hma hr hw hs
    match a, hma with
    | a + 1, hma =>
      have hc := retryable_cond_false (hr 0 (Nat.succ_pos m))
      have hw0 := hw 0 (Nat.succ_pos m)
      rw [Nat.add_zero] at hc hw0
      have step : openLoop t ctx err (a + 1) i ws =
          openLoop t ctx err a (i + 1) (ws ++ [10]) := by
        simp [openLoop, hc, hw0]
      rw [step, ih a (i + 1) t ctx err (ws ++ [10]) (by omega)
        (fun j hj => by
          have := hr (j + 1) (by omega)
          rwa [show i + (j + 1) = i + 1 + j by omega] at this)
        (fun j hj => by
          have := hw (j + 1) (by omega)
          rwa [show i + (j + 1) = i + 1 + j by omega] at this)
        (by rwa [show i + 1 + m = i + (m + 1) by omega])]
      simp [show i + 1 + m = i + (m + 1) by omega, List.replicate_succ,
        List.append_assoc]

/-- If the outcomes at relative indices `0..k` are all retryable, the first
`k` waits complete, and the context is cancelled during wait `k < attempts`,
the open loop returns the context's error after `k + 1` calls. -/
theorem openLoop_ctx_cancel (k : Nat) :
    ∀ (a i : Nat) (t : Transaction) (ctx : Ctx) (err : Option GoErr) (ws : List Nat),
    k < a →
    (∀ j, j < k + 1 → retryable (t.Starter.start (i + j)) = true) →
    (∀ j, j < k → ctx.cancelledDuringWait (i + j) = false) →
    ctx.cancelledDuringWait (i + k) = true →
    openLoop t ctx err a i ws =
      ⟨t, some ctx.ctxErr, i + k + 1, ws ++ List.replicate k 10⟩ := by
  induction k with
  | zero =>
    intro a i t ctx err ws hka hr _ hk
    match a, hka with
    | a + 1, _ =>
      have hc := retryable_cond_false (hr 0 Nat.one_pos)
      rw [Nat.add_zero] at hc hk
      simp [openLoop, hc, hk]
  | succ k ih =>
    intro a i t ctx err ws hka hr hw hk
    match a, hka with
    | a + 1, hka =>
      have hc := retryable_cond_false (hr 0 (Nat.succ_pos _))
      have hw0 := hw 0 (Nat.succ_pos k)
      rw [Nat.add_zero] at hc hw0
      have step : openLoop t ctx err (a + 1) i ws =
          openLoop t ctx err a (i + 1) (ws ++ [10]) := by
        simp [openLoop, hc, hw0]
      rw [step, ih a (i + 1) t ctx err (ws ++ [10]) (by omega)
        (fun j hj => by
          have := hr (j + 1) (by omega)
          rwa [show i + (j + 1) = i + 1 + j by omega] at this)
        (fun j hj => by
          have := hw (j + 1) (by omega)
          rwa [show i + (j + 1) = i + 1 + j by omega] at this)
        (by rwa [show i + 1 + k = i + (k + 1) by omega])]
      simp [show i + 1 + k + 1 = i + (k + 1) + 1 by omega, List.replicate_succ,
        List.append_assoc]

/-- If every outcome in the window is retryable and no wait is interrupted,
the open loop exhausts its budget: `a` calls, `a` completed waits (the last
one after the final failed attempt), the transaction untouched, and — because
of the shadowing — the outer error returned as is. -/
theorem openLoop_exhaust :
    ∀ (a i : Nat) (t : Transaction) (ctx : Ctx) (err : Option GoErr) (ws : List Nat),
    (∀ j, j < a → retryable (t.Starter.start (i + j)) = true) →
    (∀ j, j < a → ctx.cancelledDuringWait (i + j) = false) →
    openLoop t ctx err a i ws = ⟨t, err, i + a, ws ++ List.replicate a 10⟩ := by
  intro a
  induction a with
  | zero => intro i t ctx err ws _ _; simp [openLoop]
  | succ a ih =>
    intro i t ctx err ws hr hw
    have hc := retryable_cond_false (hr 0 (Nat.succ_pos a))
    have hw0 := hw 0 (Nat.succ_pos a)
    rw [Nat.add_zero] at hc hw0
    have step : openLoop t ctx err (a + 1) i ws =
        openLoop t ctx err a (i + 1) (ws ++ [10]) := by
      simp [openLoop, hc, hw0]
    rw [step, ih (i + 1) t ctx err (ws ++ [10])
      (fun j hj => by
        have := hr (j + 1) (by omega)
        rwa [show i + (j + 1) = i + 1 + j by omega] at this)
      (fun j hj => by
        have := hw (j + 1) (by omega)
        rwa [show i + (j + 1) = i + 1 + j by omega] at this)]
    simp [show i + 1 + a = i + (a + 1) by omega, List.replicate_succ,
      List.append_assoc]

/-- Close-loop analogue of `openLoop_exhaust`: all outcomes retryable, no
wait interrupted.  Because the close loop assigns the outer `err` (no
shadowing), exhaustion hands the *last* `Stop` outcome to the code after the
loop; each completed wait lasts the Stopper's `PublishAttemptsWait()`. -/
theorem closeLoop_exhaust :
    ∀ (a i : Nat) (t : Transaction) (ctx : Ctx) (err : Option GoErr) (ws : List Nat),
    (∀ j, j < a → retryable (t.Stopper.stop (i + j)) = true) →
    (∀ j, j < a → ctx.cancelledDuringWait (i + j) = false) →
    closeLoop t ctx err a i ws =
      ⟨t, (match a with | 0 => err | b + 1 => t.Stopper.stop (i + b)), i + a,
        ws ++ List.replicate a t.Stopper.publishAttemptsWait, false⟩ := by
  intro a
  induction a with
  | zero => intro i t ctx err ws _ _; simp [closeLoop]
  | succ a ih =>
    intro i t ctx err ws hr hw
    have hc := retryable_cond_false (hr 0 (Nat.succ_pos a))
    have hw0 := hw 0 (Nat.succ_pos a)
    rw [Nat.add_zero] at hc hw0
    have step : closeLoop t ctx err (a + 1) i ws =
        closeLoop t ctx (t.Stopper.stop i) a (i + 1)
          (ws ++ [t.Stopper.publishAttemptsWait]) := by
      simp [closeLoop, hc, hw0]
    rw [step, ih (i + 1) t ctx (t.Stopper.stop i)
      (ws ++ [t.Stopper.publishAttemptsWait])
      (fun j hj => by
        have := hr (j + 1) (by omega)
        rwa [show i + (j + 1) = i + 1 + j by omega] at this)
      (fun j hj => by
        have := hw (j + 1) (by omega)
        rwa [show i + (j + 1) = i + 1 + j by omega] at this)]
    cases a with
    | zero => simp
    | succ b =>
      simp [show i + 1 + b = i + (b + 1) by omega,
        show i + 1 + (b + 1) = i + (b + 1 + 1) by omega, List.replicate_succ,
        List.append_assoc]

/-- Close-loop analogue of `openLoop_ctx_cancel`: retryable outcomes up to
index `k`, waits `0..k-1` completed, context cancelled during wait `k`.  The
loop returns the context's error from inside the `select`, skipping the
post-loop flag handling (recorded by `earlyCtxReturn = true`). -/
theorem closeLoop_ctx_cancel (k : Nat) :
    ∀ (a i : Nat) (t : Transaction) (ctx : Ctx) (err : Option GoErr) (ws : List Nat),
    k < a →
    (∀ j, j < k + 1 → retryable (t.Stopper.stop (i + j)) = true) →
    (∀ j, j < k → ctx.cancelledDuringWait (i + j) = false) →
    ctx.cancelledDuringWait (i + k) = true →
    closeLoop t ctx err a i ws =
      ⟨t, some ctx.ctxErr, i + k + 1,
        ws ++ List.replicate k t.Stopper.publishAttemptsWait, true⟩ := by
  induction k with
  | zero =>
    intro a i t ctx err ws hka hr _ hk
    match a, hka with
    | a + 1, _ =>
      have hc := retryable_cond_false (hr 0 Nat.one_pos)
      rw [Nat.add_zero] at hc hk
      simp [closeLoop, hc, hk]
  | succ k ih =>
    intro a i t ctx err ws hka hr hw hk
    match a, hka with
    | a + 1, hka =>
      have hc := retryable_cond_false (hr 0 (Nat.succ_pos _))
      have hw0 := hw 0 (Nat.succ_pos k)
      rw [Nat.add_zero] at hc hw0
      have step : closeLoop t ctx err (a + 1) i ws =
          closeLoop t ctx (t.Stopper.stop i) a (i + 1)
            (ws ++ [t.Stopper.publishAttemptsWait]) := by
        simp [closeLoop, hc, hw0]
      rw [step, ih a (i + 1) t ctx (t.Stopper.stop i)
        (ws ++ [t.Stopper.publishAttemptsWait]) (by omega)
        (fun j hj => by
          have := hr (j + 1) (by omega)
          rwa [show i + (j + 1) = i + 1 + j by omega] at this)
        (fun j hj => by
          have := hw (j + 1) (by omega)
          rwa [show i + (j + 1) = i + 1 + j by omega] at this)
        (by rwa [show i + 1 + k = i + (k + 1) by omega])]
      simp [show i + 1 + k + 1 = i + (k + 1) + 1 by omega, List.replicate_succ,
        List.append_assoc]

/-- If the close loop does not return early through the cancelled wait and
hands a nil error to the post-loop code, then the flag was cleared by the
`break` branch (the `attempts = 0` entry case is excluded by requiring the
carried error to be non-nil there). -/
theorem closeLoop_ret_none_clears :
    ∀ (a i : Nat) (t : Transaction) (ctx : Ctx) (err : Option GoErr) (ws : List Nat),
    (a = 0 → err.isSome = true) →
    (closeLoop t ctx err a i ws).earlyCtxReturn = false →
    (closeLoop t ctx err a i ws).ret = none →
    (closeLoop t ctx err a i ws).t.ongoing = false := by
  intro a
  induction a with
  | zero =>
    intro i t ctx err ws h0 _ hret
    simp [closeLoop] at hret
    simp [h0 rfl, hret] at *
  | succ a ih =>
    intro i t ctx err ws _ hearly hret
    by_cases hc : (t.Stopper.stop i).isNone || errorsIsCancelOrDeadline (t.Stopper.stop i)
    · simp [closeLoop, hc] at hearly hret ⊢
      simp [hret]
    · by_cases hd : ctx.cancelledDuringWait i
      · simp [closeLoop, hc, hd] at hearly
      · have step : closeLoop t ctx err (a + 1) i ws =
            closeLoop t ctx (t.Stopper.stop i) a (i + 1)
              (ws ++ [t.Stopper.publishAttemptsWait]) := by
          simp [closeLoop, hc, hd]
        rw [step] at hearly hret ⊢
        refine ih (i + 1) t ctx (t.Stopper.stop i)
          (ws ++ [t.Stopper.publishAttemptsWait]) (fun _ => ?_) hearly hret
        cases he : t.Stopper.stop i with
        | none => simp [he] at hc
        | some e => rfl

/-- The open loop never reads the attempt counts reported by the injected
interfaces: replacing them changes nothing but the configuration carried
inside the resulting transaction value. -/
theorem openLoop_withAttCfg :
    ∀ (a i : Nat) (t : Transaction) (ctx : Ctx) (err : Option GoErr) (ws : List Nat)
      (m n : Nat),
    openLoop (withAttCfg t m n) ctx err a i ws =
      ⟨withAttCfg (openLoop t ctx err a i ws).t m n, (openLoop t ctx err a i ws).ret,
        (openLoop t ctx err a i ws).startCalls, (openLoop t ctx err a i ws).waits⟩ := by
  intro a
  induction a with
  | zero => intro i t ctx err ws m n; simp [openLoop]
  | succ a ih =>
    intro i t ctx err ws m n
    have hstart : (withAttCfg t m n).Starter.start = t.Starter.start := rfl
    by_cases hc : (t.Starter.start i).isNone || errorsIsCancelOrDeadline (t.Starter.start i)
    · simp [openLoop, withAttCfg, hc]
    · by_cases hd : ctx.cancelledDuringWait i
      · simp [openLoop, withAttCfg, hc, hd]
      · have stepc : openLoop (withAttCfg t m n) ctx err (a + 1) i ws =
            openLoop (withAttCfg t m n) ctx err a (i + 1) (ws ++ [10]) := by
          simp [openLoop, withAttCfg, hc, hd]
        have stept : openLoop t ctx err (a + 1) i ws =
            openLoop t ctx err a (i + 1) (ws ++ [10]) := by
          simp [openLoop, hc, hd]
        rw [stepc, stept, ih]

/-- Close-loop analogue of `openLoop_withAttCfg`; note that the wait duration
read through the Stopper is untouched by the replacement. -/
theorem closeLoop_withAttCfg :
    ∀ (a i : Nat) (t : Transaction) (ctx : Ctx) (err : Option GoErr) (ws : List Nat)
      (m n : Nat),
    closeLoop (withAttCfg t m n) ctx err a i ws =
      ⟨withAttCfg (closeLoop t ctx err a i ws).t m n, (closeLoop t ctx err a i ws).ret,
        (closeLoop t ctx err a i ws).stopCalls, (closeLoop t ctx err a i ws).waits,
        (closeLoop t ctx err a i ws).earlyCtxReturn⟩ := by
  intro a
  induction a with
  | zero => intro i t ctx err ws m n; simp [closeLoop]
  | succ a ih =>
    intro i t ctx err ws m n
    by_cases hc : (t.Stopper.stop i).isNone || errorsIsCancelOrDeadline (t.Stopper.stop i)
    · simp [closeLoop, withAttCfg, hc]
    · by_cases hd : ctx.cancelledDuringWait i
      · simp [closeLoop, withAttCfg, hc, hd]
      · have stepc : closeLoop (withAttCfg t m n) ctx err (a + 1) i ws =
            closeLoop (withAttCfg t m n) ctx (t.Stopper.stop i) a (i + 1)
              (ws ++ [t.Stopper.publishAttemptsWait]) := by
          simp [closeLoop, withAttCfg, hc, hd]
        have stept : closeLoop t ctx err (a + 1) i ws =
            closeLoop t ctx (t.Stopper.stop i) a (i + 1)
              (ws ++ [t.Stopper.publishAttemptsWait]) := by
          simp [closeLoop, hc, hd]
        rw [stepc, stept, ih]

/-- Every wait the open loop completes lasts the fixed 10 seconds. -/
theorem openLoop_waits_ten :
    ∀ (a i : Nat) (t : Transaction) (ctx : Ctx) (err : Option GoErr) (ws : List Nat),
    (∀ d ∈ ws, d = 10) → ∀ d ∈ (openLoop t ctx err a i ws).waits, d = 10 := by
  intro a
  induction a with
  | zero => intro i t ctx err ws hws; simpa [openLoop] using hws
  | succ a ih =>
    intro i t ctx err ws hws
    by_cases hc : (t.Starter.start i).isNone || errorsIsCancelOrDeadline (t.Starter.start i)
    · simpa [openLoop, hc] using hws
    · by_cases hd : ctx.cancelledDuringWait i
      · simpa [openLoop, hc, hd] using hws
      · have step : openLoop t ctx err (a + 1) i ws =
            openLoop t ctx err a (i + 1) (ws ++ [10]) := by
          simp [openLoop, hc, hd]
        rw [step]
        exact ih (i + 1) t ctx err (ws ++ [10])
          (fun d hd2 => by
            rcases List.mem_append.mp hd2 with h | h
            · exact hws d h
            · simpa using h)

/-- Every wait the close loop completes lasts the number of seconds the
injected Stopper reports as `PublishAttemptsWait()`. -/
theorem closeLoop_waits_pubWait :
    ∀ (a i : Nat) (t : Transaction) (ctx : Ctx) (err : Option GoErr) (ws : List Nat),
    (∀ d ∈ ws, d = t.Stopper.publishAttemptsWait) →
    ∀ d ∈ (closeLoop t ctx err a i ws).waits, d = t.Stopper.publishAttemptsWait := by
  intro a
  induction a with
  | zero => intro i t ctx err ws hws; simpa [closeLoop] using hws
  | succ a ih =>
    intro i t ctx err ws hws
    by_cases hc : (t.Stopper.stop i).isNone || errorsIsCancelOrDeadline (t.Stopper.stop i)
    · simpa [closeLoop, hc] using hws
    · by_cases hd : ctx.cancelledDuringWait i
      · simpa [closeLoop, hc, hd] using hws
      · have step : closeLoop t ctx err (a + 1) i ws =
            closeLoop t ctx (t.Stopper.stop i) a (i + 1)
              (ws ++ [t.Stopper.publishAttemptsWait]) := by
          simp [closeLoop, hc, hd]
        rw [step]
        exact ih (i + 1) t ctx (t.Stopper.stop i) (ws ++ [t.Stopper.publishAttemptsWait])
          (fun d hd2 => by
            rcases List.mem_append.mp hd2 with h | h
            · exact hws d h
            · simpa using h)

/-- C1: evaluation of `Open` at the input the claim fails on.  With a Starter
whose `Start` fails with a retryable (non-cancellation) error on every
attempt and a context never cancelled, `Open` exhausts its three attempts yet
returns nil with the flag still false: the loop's `err :=` shadows the outer
`err` the function returns, so the claimed "last Start error on exhaustion"
and the "flag true iff nil returned" contract both fail on the source. -/
theorem c1_open_exhaustion_returns_nil :
    ((mkT false (fun _ => some (GoErr.other 1)) (fun _ => none) none).Open
      noCancelCtx).ret = none ∧
    ((mkT false (fun _ => some (GoErr.other 1)) (fun _ => none) none).Open
      noCancelCtx).t.ongoing = false ∧
    ((mkT false (fun _ => some (GoErr.other 1)) (fun _ => none) none).Open
      noCancelCtx).startCalls = 3 := by
  decide

/-- C2: counterexample to "when Close returns, the ongoing flag is false".
An ongoing transaction whose Stopper fails retryably, with the context
cancelled during the first inter-attempt wait: Close returns the context's
error from inside the select, skipping the post-loop flag handling, and the
flag is still true. -/
theorem c2_cex_ctx_cancel_keeps_flag :
    ((mkT true (fun _ => none) (fun _ => some (GoErr.other 2)) none).Close
      (cancelAtCtx 0)).ret = some GoErr.canceled ∧
    ((mkT true (fun _ => none) (fun _ => some (GoErr.other 2)) none).Close
      (cancelAtCtx 0)).t.ongoing = true := by
  decide

/-- C2 (amended): when Close returns by any path other than a context
cancellation during an inter-attempt wait — success, a cancellation-sentinel
Stop error, or exhaustion of all attempts — the ongoing flag ends up false;
the in-wait cancellation path alone leaves the flag as it was. -/
theorem c2_close_clears_flag_unless_wait_cancelled (t : Transaction) (ctx : Ctx)
    (h : (t.Close ctx).earlyCtxReturn = false) :
    (t.Close ctx).t.ongoing = false := by
  by_cases ho : t.ongoing
  · simp only [Transaction.Close, ho, Bool.not_true, Bool.false_eq_true, if_false] at h ⊢
    by_cases he : (closeLoop t ctx none (Transaction.PublishAttempts t) 0 []).earlyCtxReturn
    · rw [if_pos he] at h
      exact absurd h (by simp [he])
    · rw [if_neg he] at h ⊢
      by_cases hs : (closeLoop t ctx none (Transaction.PublishAttempts t) 0 []).ret.isSome
      · rw [if_pos hs]
      · rw [if_neg hs]
        have hnone : (closeLoop t ctx none (Transaction.PublishAttempts t) 0 []).ret = none := by
          cases hx : (closeLoop t ctx none (Transaction.PublishAttempts t) 0 []).ret with
          | none => rfl
          | some e => exact absurd (by simp [hx]) hs
        exact closeLoop_ret_none_clears (Transaction.PublishAttempts t) 0 t ctx none []
          (by intro hx; simp [Transaction.PublishAttempts] at hx) (by simpa using he) hnone
  · simp [Transaction.Close, ho]

/-- C2 witness: the amended statement at a concrete input — an ongoing
transaction whose Stopper always fails retryably and whose context is never
cancelled: Close exits the loop by exhaustion and the flag ends false. -/
theorem c2_close_clears_flag_witness :
    ((mkT true (fun _ => none) (fun _ => some (GoErr.other 2)) none).Close
      noCancelCtx).t.ongoing = false :=
  c2_close_clears_flag_unless_wait_cancelled _ _ (by decide)

/-- C4: evaluation at the failing input.  A Starter whose every `Start`
attempt reports a phase-tagged `OpenError` wrapping an underlying backend
error: `Open` makes its three attempts and then returns nil — the terminal
open failure is not surfaced to the caller at all (the shadowed `err` again),
contradicting "each wrapping (not replacing or swallowing) the underlying
backend error". -/
theorem c4_open_phase_error_swallowed :
    ((mkT false (fun _ => some (GoErr.OpenError (GoErr.other 7))) (fun _ => none)
      none).Open noCancelCtx).ret = none ∧
    ((mkT false (fun _ => some (GoErr.OpenError (GoErr.other 7))) (fun _ => none)
      none).Open noCancelCtx).startCalls = 3 := by
  decide

/-- C5: evaluation at the failing input.  `Start` reports the cancellation
sentinel on the first attempt: the loop does stop immediately (one call, no
wait) and the instance stays not ongoing, but `Open` returns nil instead of
propagating the cancellation error — the outer `err` the function returns was
never assigned. -/
theorem c5_cancel_stops_loop_but_returns_nil :
    ((mkT false (fun _ => some GoErr.canceled) (fun _ => none) none).Open
      noCancelCtx).startCalls = 1 ∧
    ((mkT false (fun _ => some GoErr.canceled) (fun _ => none) none).Open
      noCancelCtx).waits = [] ∧
    ((mkT false (fun _ => some GoErr.canceled) (fun _ => none) none).Open
      noCancelCtx).t.ongoing = false ∧
    ((mkT false (fun _ => some GoErr.canceled) (fun _ => none) none).Open
      noCancelCtx).ret = none := by
  decide

/-- C6: the three idempotent no-op paths.  Open on an ongoing transaction,
Close on a non-ongoing one and Abort on a non-ongoing one each return nil,
make no backend call, and leave the transaction value (in particular the
ongoing flag) unchanged. -/
theorem c6_noop_paths (t : Transaction) (ctx : Ctx) :
    (t.ongoing = true →
      (t.Open ctx).t = t ∧ (t.Open ctx).ret = none ∧ (t.Open ctx).startCalls = 0)
  ∧ (t.ongoing = false →
      (t.Close ctx).t = t ∧ (t.Close ctx).ret = none ∧ (t.Close ctx).stopCalls = 0)
  ∧ (t.ongoing = false →
      (t.Abort ctx).t = t ∧ (t.Abort ctx).ret = none ∧ (t.Abort ctx).killCalls = 0) := by
  refine ⟨fun h => ?_, fun h => ?_, fun h => ?_⟩ <;>
    simp [Transaction.Open, Transaction.Close, Transaction.Abort, h]

/-- C6 witness: the no-op paths at concrete inputs, with each precondition
discharged by computation. -/
theorem c6_noop_paths_witness :
    ((mkT true (fun _ => some (GoErr.other 1)) (fun _ => some (GoErr.other 2))
      (some (GoErr.other 3))).Open noCancelCtx).ret = none ∧
    ((mkT false (fun _ => some (GoErr.other 1)) (fun _ => some (GoErr.other 2))
      (some (GoErr.other 3))).Close noCancelCtx).ret = none ∧
    ((mkT false (fun _ => some (GoErr.other 1)) (fun _ => some (GoErr.other 2))
      (some (GoErr.other 3))).Abort noCancelCtx).ret = none :=
  ⟨((c6_noop_paths (mkT true (fun _ => some (GoErr.other 1))
      (fun _ => some (GoErr.other 2)) (some (GoErr.other 3))) noCancelCtx).1 rfl).2.1,
   ((c6_noop_paths (mkT false (fun _ => some (GoErr.other 1))
      (fun _ => some (GoErr.other 2)) (some (GoErr.other 3))) noCancelCtx).2.1 rfl).2.1,
   ((c6_noop_paths (mkT false (fun _ => some (GoErr.other 1))
      (fun _ => some (GoErr.other 2)) (some (GoErr.other 3))) noCancelCtx).2.2 rfl).2.1⟩

/-- C9: Abort on an ongoing transaction calls `Kill` exactly once (no loop,
no wait), returns exactly the error Kill reports, and returns the transaction
value itself — flag and every other field untouched. -/
theorem c9_abort_kills_once_frame (t : Transaction) (ctx : Ctx)
    (h : t.ongoing = true) :
    t.Abort ctx = ⟨t, t.Aborter.kill, 1⟩ := by
  simp [Transaction.Abort, h]

/-- C9 witness: the Abort contract at a concrete ongoing transaction whose
Kill reports an abort-phase error. -/
theorem c9_abort_witness :
    (mkT true (fun _ => none) (fun _ => none)
        (some (GoErr.AbortError (GoErr.other 9)))).Abort noCancelCtx =
      ⟨mkT true (fun _ => none) (fun _ => none)
        (some (GoErr.AbortError (GoErr.other 9))),
       some (GoErr.AbortError (GoErr.other 9)), 1⟩ :=
  c9_abort_kills_once_frame _ _ rfl

/-- C3: counterexample.  A backend whose Starter reports `OpenAttempts() = 1`
and whose Stopper reports `PublishAttempts() = 1`: if the core queried the
injected interfaces, at most one attempt would be made, but Open performs 3
`Start` calls and Close performs 3 `Stop` calls — the core's own default
methods (`t.OpenAttempts()`, `t.PublishAttempts()`, both 3) are what the
loops read. -/
theorem c3_cex_backend_counts_ignored :
    ((withAttCfg (mkT false (fun _ => some (GoErr.other 3))
        (fun _ => some (GoErr.other 4)) none) 1 1).Open noCancelCtx).startCalls = 3 ∧
    ((withAttCfg (mkT true (fun _ => some (GoErr.other 3))
        (fun _ => some (GoErr.other 4)) none) 1 1).Close noCancelCtx).stopCalls = 3 := by
  decide

/-- C3 (amended): the attempt counts the core uses are its own defaults —
replacing the counts reported by the injected Starter/Stopper changes nothing
observable about Open or Close; only the inter-attempt delay of Close is
queried from the injected Stopper (`PublishAttemptsWait()` seconds per
completed wait), while Open's delay is the fixed 10 seconds. -/
theorem c3_attempt_counts_are_core_defaults (t : Transaction) (ctx : Ctx) (m n : Nat) :
    (((withAttCfg t m n).Open ctx).ret = (t.Open ctx).ret
      ∧ ((withAttCfg t m n).Open ctx).startCalls = (t.Open ctx).startCalls
      ∧ ((withAttCfg t m n).Open ctx).t.ongoing = (t.Open ctx).t.ongoing
      ∧ ((withAttCfg t m n).Open ctx).waits = (t.Open ctx).waits)
  ∧ (((withAttCfg t m n).Close ctx).ret = (t.Close ctx).ret
      ∧ ((withAttCfg t m n).Close ctx).stopCalls = (t.Close ctx).stopCalls
      ∧ ((withAttCfg t m n).Close ctx).t.ongoing = (t.Close ctx).t.ongoing
      ∧ ((withAttCfg t m n).Close ctx).waits = (t.Close ctx).waits)
  ∧ (∀ d ∈ (t.Open ctx).waits, d = 10)
  ∧ (∀ d ∈ (t.Close ctx).waits, d = t.Stopper.publishAttemptsWait) := by
  have hO : (withAttCfg t m n).Open ctx =
      ⟨withAttCfg (t.Open ctx).t m n, (t.Open ctx).ret, (t.Open ctx).startCalls,
        (t.Open ctx).waits⟩ := by
    unfold Transaction.Open
    rw [show (withAttCfg t m n).ongoing = t.ongoing from rfl]
    by_cases ho : t.ongoing
    · simp [ho]
    · simp only [ho, Bool.false_eq_true, if_false]
      rw [show Transaction.OpenAttempts (withAttCfg t m n) = Transaction.OpenAttempts t
        from rfl]
      exact openLoop_withAttCfg (Transaction.OpenAttempts t) 0 t ctx none [] m n
  have hC : (withAttCfg t m n).Close ctx =
      ⟨withAttCfg (t.Close ctx).t m n, (t.Close ctx).ret, (t.Close ctx).stopCalls,
        (t.Close ctx).waits, (t.Close ctx).earlyCtxReturn⟩ := by
    unfold Transaction.Close
    rw [show (withAttCfg t m n).ongoing = t.ongoing from rfl]
    by_cases ho : t.ongoing
    · simp only [ho, Bool.not_true, Bool.false_eq_true, if_false]
      rw [show Transaction.PublishAttempts (withAttCfg t m n) = Transaction.PublishAttempts t
        from rfl]
      rw [closeLoop_withAttCfg]
      by_cases he : (closeLoop t ctx none (Transaction.PublishAttempts t) 0 []).earlyCtxReturn
      · simp [he]
      · by_cases hs : (closeLoop t ctx none (Transaction.PublishAttempts t) 0 []).ret.isSome
        · simp [he, hs, withAttCfg]
        · simp [he, hs]
    · simp [ho]
  have hOw : ∀ d ∈ (t.Open ctx).waits, d = 10 := by
    unfold Transaction.Open
    by_cases ho : t.ongoing
    · simp [ho]
    · simp only [ho, Bool.false_eq_true, if_false]
      exact openLoop_waits_ten _ _ t ctx none [] (by simp)
  have hCw : ∀ d ∈ (t.Close ctx).waits, d = t.Stopper.publishAttemptsWait := by
    unfold Transaction.Close
    by_cases ho : t.ongoing
    · simp only [ho, Bool.not_true, Bool.false_eq_true, if_false]
      by_cases he : (closeLoop t ctx none (Transaction.PublishAttempts t) 0 []).earlyCtxReturn
      · simp only [he, if_true]
        exact closeLoop_waits_pubWait _ _ t ctx none [] (by simp)
      · by_cases hs : (closeLoop t ctx none (Transaction.PublishAttempts t) 0 []).ret.isSome
        · simp only [he, hs, Bool.false_eq_true, if_false, if_true]
          exact closeLoop_waits_pubWait _ _ t ctx none [] (by simp)
        · simp only [he, hs, Bool.false_eq_true, if_false]
          exact closeLoop_waits_pubWait _ _ t ctx none [] (by simp)
    · simp [ho]
  exact ⟨⟨by rw [hO], by rw [hO], by rw [hO]; rfl, by rw [hO]⟩,
    ⟨by rw [hC], by rw [hC], by rw [hC]; rfl, by rw [hC]⟩, hOw, hCw⟩

/-- C7: if the context is cancelled during the inter-attempt wait of
iteration `k` (after `k + 1` retryable `Start` failures and `k` completed
waits), Open returns the context's own error immediately: exactly `k + 1`
`Start` calls were made, however many attempts remained. -/
theorem c7_ctx_cancel_in_wait (t : Transaction) (ctx : Ctx) (k : Nat)
    (hng : t.ongoing = false) (hk : k < t.OpenAttempts)
    (hr : ∀ j, j < k + 1 → retryable (t.Starter.start j) = true)
    (hw : ∀ j, j < k → ctx.cancelledDuringWait j = false)
    (hc : ctx.cancelledDuringWait k = true) :
    (t.Open ctx).ret = some ctx.ctxErr ∧ (t.Open ctx).startCalls = k + 1 := by
  have h := openLoop_ctx_cancel k (Transaction.OpenAttempts t) 0 t ctx none [] hk
    (fun j hj => by rw [Nat.zero_add]; exact hr j hj)
    (fun j hj => by rw [Nat.zero_add]; exact hw j hj)
    (by rw [Nat.zero_add]; exact hc)
  unfold Transaction.Open
  simp [hng, h]

/-- C7 witness: cancellation during the very first wait — one `Start` call,
then the context's error. -/
theorem c7_ctx_cancel_in_wait_witness :
    ((mkT false (fun _ => some (GoErr.other 6)) (fun _ => none) none).Open
      (cancelAtCtx 0)).ret = some GoErr.canceled ∧
    ((mkT false (fun _ => some (GoErr.other 6)) (fun _ => none) none).Open
      (cancelAtCtx 0)).startCalls = 1 :=
  c7_ctx_cancel_in_wait _ _ 0 rfl (by decide)
    (fun _ _ => rfl) (fun _ hj => absurd hj (by omega)) rfl

/-- C8: if the first `k - 1` `Start` outcomes are retryable failures with
undisturbed waits and attempt `k` (1-based, `k` at most the attempt budget
Open enforces) succeeds, Open returns nil, the instance is ongoing, and
`Start` was invoked exactly `k` times. -/
theorem c8_success_on_attempt_k (t : Transaction) (ctx : Ctx) (k : Nat)
    (hng : t.ongoing = false) (hk1 : 1 ≤ k) (hk : k ≤ t.OpenAttempts)
    (hr : ∀ j, j < k - 1 → retryable (t.Starter.start j) = true)
    (hw : ∀ j, j < k - 1 → ctx.cancelledDuringWait j = false)
    (hs : t.Starter.start (k - 1) = none) :
    (t.Open ctx).ret = none ∧ (t.Open ctx).t.ongoing = true
      ∧ (t.Open ctx).startCalls = k := by
  have hOA : Transaction.OpenAttempts t = 3 := rfl
  have h := openLoop_break_success (k - 1) (Transaction.OpenAttempts t) 0 t ctx none []
    (by omega)
    (fun j hj => by rw [Nat.zero_add]; exact hr j hj)
    (fun j hj => by rw [Nat.zero_add]; exact hw j hj)
    (by rw [Nat.zero_add]; exact hs)
  unfold Transaction.Open
  simp [hng, h]
  omega

/-- C8 witness: success on the second of three attempts — two `Start` calls,
nil result, flag set. -/
theorem c8_success_on_attempt_k_witness :
    ((mkT false (fun i => if i == 0 then some (GoErr.other 5) else none)
      (fun _ => none) none).Open noCancelCtx).ret = none ∧
    ((mkT false (fun i => if i == 0 then some (GoErr.other 5) else none)
      (fun _ => none) none).Open noCancelCtx).t.ongoing = true ∧
    ((mkT false (fun i => if i == 0 then some (GoErr.other 5) else none)
      (fun _ => none) none).Open noCancelCtx).startCalls = 2 :=
  c8_success_on_attempt_k _ _ 2 rfl (by omega) (by decide)
    (fun j hj => by
      have hj0 : j = 0 := by omega
      subst hj0; rfl)
    (fun _ _ => rfl)
    rfl

/-- C10: both loops wait after every retryable failure, the final attempt
included.  If all three attempts fail retryably and the context stays live,
Open completes three full 10-second waits (the third after the last attempt)
and Close completes three `PublishAttemptsWait()`-second waits before
returning; if the context is cancelled during that trailing wait, the call
returns the context's error instead of the last backend error. -/
theorem c10_trailing_wait_after_last_attempt (t : Transaction) (ctx : Ctx) :
    (t.ongoing = false →
      (∀ j, j < 3 → retryable (t.Starter.start j) = true) →
      (∀ j, ctx.cancelledDuringWait j = false) →
      (t.Open ctx).waits = [10, 10, 10] ∧ (t.Open ctx).startCalls = 3)
  ∧ (t.ongoing = false →
      (∀ j, j < 3 → retryable (t.Starter.start j) = true) →
      (∀ j, j < 2 → ctx.cancelledDuringWait j = false) →
      ctx.cancelledDuringWait 2 = true →
      (t.Open ctx).ret = some ctx.ctxErr ∧ (t.Open ctx).startCalls = 3)
  ∧ (t.ongoing = true →
      (∀ j, j < 3 → retryable (t.Stopper.stop j) = true) →
      (∀ j, ctx.cancelledDuringWait j = false) →
      (t.Close ctx).waits = List.replicate 3 t.Stopper.publishAttemptsWait
        ∧ (t.Close ctx).ret = t.Stopper.stop 2 ∧ (t.Close ctx).stopCalls = 3)
  ∧ (t.ongoing = true →
      (∀ j, j < 3 → retryable (t.Stopper.stop j) = true) →
      (∀ j, j < 2 → ctx.cancelledDuringWait j = false) →
      ctx.cancelledDuringWait 2 = true →
      (t.Close ctx).ret = some ctx.ctxErr
        ∧ (t.Close ctx).waits = List.replicate 2 t.Stopper.publishAttemptsWait) := by
  refine ⟨fun hng hr hw => ?_, fun hng hr hw hc => ?_,
    fun hng hr hw => ?_, fun hng hr hw hc => ?_⟩
  · have h := openLoop_exhaust (Transaction.OpenAttempts t) 0 t ctx none []
      (fun j hj => by rw [Nat.zero_add]; exact hr j hj)
      (fun j _ => by rw [Nat.zero_add]; exact hw j)
    unfold Transaction.Open
    rw [hng]
    simp only [Bool.false_eq_true, if_false]
    rw [h]
    simp [Transaction.OpenAttempts, List.replicate]
  · have h := openLoop_ctx_cancel 2 (Transaction.OpenAttempts t) 0 t ctx none []
      (by rw [show Transaction.OpenAttempts t = 3 from rfl]; omega)
      (fun j hj => by rw [Nat.zero_add]; exact hr j hj)
      (fun j hj => by rw [Nat.zero_add]; exact hw j hj)
      (by rw [Nat.zero_add]; exact hc)
    unfold Transaction.Open
    simp [hng, h]
  · have hsome : (t.Stopper.stop 2).isSome = true :=
      retryable_isSome (hr 2 (by omega))
    have h := closeLoop_exhaust (Transaction.PublishAttempts t) 0 t ctx none []
      (fun j hj => by rw [Nat.zero_add]; exact hr j hj)
      (fun j _ => by rw [Nat.zero_add]; exact hw j)
    unfold Transaction.Close
    rw [hng]
    simp only [Bool.not_true, Bool.false_eq_true, if_false]
    rw [h]
    simp [Transaction.PublishAttempts, hsome]
  · have h := closeLoop_ctx_cancel 2 (Transaction.PublishAttempts t) 0 t ctx none []
      (by rw [show Transaction.PublishAttempts t = 3 from rfl]; omega)
      (fun j hj => by rw [Nat.zero_add]; exact hr j hj)
      (fun j hj => by rw [Nat.zero_add]; exact hw j hj)
      (by rw [Nat.zero_add]; exact hc)
    unfold Transaction.Close
    rw [hng]
    simp only [Bool.not_true, Bool.false_eq_true, if_false]
    rw [h]
    simp

/-- C10 witness: an ongoing transaction whose Stopper always fails retryably
under a live context — Close makes three `Stop` calls and completes three
30-second waits (the Stopper's `PublishAttemptsWait()`), the last one after
the final failed attempt, before returning the last error. -/
theorem c10_trailing_wait_witness :
    ((mkT true (fun _ => none) (fun _ => some (GoErr.other 8)) none).Close
      noCancelCtx).waits = List.replicate 3 30 ∧
    ((mkT true (fun _ => none) (fun _ => some (GoErr.other 8)) none).Close
      noCancelCtx).ret = some (GoErr.other 8) ∧
    ((mkT true (fun _ => none) (fun _ => some (GoErr.other 8)) none).Close
      noCancelCtx).stopCalls = 3 :=
  (c10_trailing_wait_after_last_attempt _ _).2.2.1 rfl (fun _ _ => rfl) (fun _ => rfl)
